import Mathlib

/-!
Shallow embedding of `apiserver/bll/model/__init__.py` (class `ModelBLL`) of
the jarvis-server repository.

The mongoengine/pymongo store is modelled as an explicit `DB` value holding
the `Model` and `Task` collections.  Every mutating operation returns the new
store state; a raised exception is an `Except.error` carrying the store state
at the moment of the raise, because writes committed before the raise persist
in the real system.  The two collection-level calls
(`Task._get_collection().update_many` and `...update_one`) are modelled
together with the driver/server validation of the update document, because
the source builds one update document whose exact shape matters.
-/

/-- Task workflow status (class TaskStatus of the database layer).  Only
`published` is inspected by this module; the other constructors stand for the
remaining workflow states. -/
inductive TaskStatus where
  | created
  | queued
  | in_progress
  | stopped
  | publishing
  | published
  | closed
  | failed
  | completed
deriving DecidableEq, Repr

/-- One element of a Task's `models.input` / `models.output` arrays; only the
`model` reference field matters to this module. -/
structure ModelItem where
  model : String
deriving DecidableEq, Repr

/-- The `models` embedded document of a Task. -/
structure TaskModels where
  input : List ModelItem
  output : List ModelItem
deriving DecidableEq, Repr

/-- A Task document.  `company = none` models a null/missing company;
`output_error` models the `output.error` field. -/
structure TaskDoc where
  id : String
  company : Option String
  status : TaskStatus
  models : TaskModels
  output_error : Option String
  last_change : Nat
deriving DecidableEq, Repr

/-- A Model document.  `company = none` models a null company and
`company = some ""` an empty one; both denote a public model.  `task` is the
originating-task id, with `""` standing for an unset field (Python falsy).
`labels` is the label mapping; only its cardinality is used by this module. -/
structure ModelDoc where
  id : String
  company : Option String
  ready : Bool
  task : String
  project : String
  uri : String
  labels : List (String × Nat)
  system_tags : List String
  last_update : Nat
deriving DecidableEq, Repr

/-- The document store: the `Model` and `Task` collections. -/
structure DB where
  models : List ModelDoc
  tasks : List TaskDoc
deriving DecidableEq, Repr

/-- The apierrors raised by this module, with the payloads the raise sites
pass.  `invalidModelId` is errors.bad_request.InvalidModelId (the NotFound
kind); it carries the requested id(s). -/
inductive ApiError where
  | invalidModelId (ids : List String)
  | modelIsReady (company : String) (model : String)
  | modelInUse (num_tasks : Nat)
  | modelCreatingTaskExists (task : String)
deriving DecidableEq, Repr

/-- Anything an operation of this module can raise: an apierror, an exception
escaping the injected publish-task callback, or a write error reported by the
database driver. -/
inductive Err where
  | api (e : ApiError)
  | callback (msg : String)
  | mongo (msg : String)
deriving DecidableEq, Repr

/-- Modelled from the spec: the fixed tombstone prefix (the constant
`deleted_prefix` imported from apiserver/bll/task/utils, whose defining module
is not part of this source tree).  Only that it is one fixed string matters. -/
def deleted_prefix : String := "__DELETED__"

/-- Tombstone id of a deleted model: the fixed prefix concatenated with the
model id. -/
def tombstoneOf (model_id : String) : String := deleted_prefix ++ model_id

/-- Modelled from the spec: the archived system tag
(EntityVisibility.archived.value, defined outside this source tree). -/
def archivedTag : String := "archived"

/-- Modelled from the spec: the rendering of the current timestamp that is
embedded in the `output.error` message (datetime.isoformat on the abstract
clock). -/
def isoformat (now : Nat) : String := toString now

/-- The first Model matching `Model.objects(company=company_id, id=model_id)`. -/
def modelFind (db : DB) (company_id model_id : String) : Option ModelDoc :=
  db.models.find? (fun m => m.company == some company_id && m.id == model_id)

/-- ModelBLL.get_company_model_by_id: company-scoped point lookup; raises
InvalidModelId when absent.  (The `only_fields` projection is dropped: it
restricts the fetched attributes, not the semantics.) -/
def get_company_model_by_id (db : DB) (company_id model_id : String) :
    Except ApiError ModelDoc :=
  match modelFind db company_id model_id with
  | some m => .ok m
  | none => .error (.invalidModelId [model_id])

/-- Modelled from the spec: the visibility predicate applied by
`Model.get_many` (defined outside this source tree): company match, or public
model — empty/null company — when `allow_public` is set. -/
def visible (company_id : String) (allow_public : Bool) (m : ModelDoc) : Bool :=
  m.company == some company_id
    || (allow_public && (m.company == none || m.company == some ""))

/-- ModelBLL.assert_exists (the source name is a reserved command name here,
hence the camel case): batch resolve of the distinct requested ids under the
visibility rule; any count mismatch raises InvalidModelId carrying the full
requested id list.  With `return_models = false` nothing is returned on
success. -/
def assertExists (db : DB) (company_id : String) (model_ids : List String)
    (allow_public : Bool) (return_models : Bool) :
    Except ApiError (Option (List ModelDoc)) :=
  let ids := model_ids.dedup
  let q := db.models.filter (fun m => ids.contains m.id && visible company_id allow_public m)
  if q.length ≠ ids.length then .error (.invalidModelId model_ids)
  else .ok (if return_models then some q else none)

/-- Result wrapper for a cascaded task publish (apimodels
ModelTaskPublishResponse); `data` is the opaque callback payload. -/
structure ModelTaskPublishResponse (α : Type) where
  id : String
  data : α
deriving DecidableEq, Repr

/-- The lookup `Task.objects(id=task_id, company=company_id).only(...).first()`
performed by publish_model. -/
def publishTaskLookup (db : DB) (task_id company_id : String) : Option TaskDoc :=
  (db.tasks.filter (fun t => t.id == task_id && t.company == some company_id)).head?

/-- The update `model.update(upsert=False, ready=True, last_update=now)`: a
pk-scoped update returning the matched-document count reported by the store. -/
def modelSetReady (db : DB) (model_id : String) (now : Nat) : Nat × DB :=
  ((db.models.filter (fun x => x.id == model_id)).length,
   { db with models := db.models.map (fun x =>
       if x.id == model_id then { x with ready := true, last_update := now } else x) })

/-- ModelBLL.publish_model.  The injected `publish_task_func` may itself raise
(modelled as `Except.error`), in which case the exception escapes before the
model's own update is issued. -/
def publish_model {α : Type} (db : DB) (model_id company_id user_id : String)
    (force_publish_task : Bool)
    (publish_task_func : Option (String → String → String → Bool → Except String α))
    (now : Nat) :
    Except (Err × DB) ((Nat × Option (ModelTaskPublishResponse α)) × DB) :=
  match get_company_model_by_id db company_id model_id with
  | .error e => .error (.api e, db)
  | .ok model =>
    if model.ready then .error (.api (.modelIsReady company_id model_id), db)
    else
      let cascade : Except (Err × DB) (Option (ModelTaskPublishResponse α)) :=
        if model.task == "" then .ok none
        else
          match publish_task_func with
          | none => .ok none
          | some f =>
            match publishTaskLookup db model.task company_id with
            | none => .ok none
            | some task =>
              if task.status == .published then .ok none
              else
                match f model.task company_id user_id force_publish_task with
                | .ok res => .ok (some ⟨model.task, res⟩)
                | .error e => .error (.callback e, db)
      match cascade with
      | .error ed => .error ed
      | .ok published_task =>
        let (updated, db1) := modelSetReady db model_id now
        .ok ((updated, published_task), db1)

/-- Dotted-path assignments used by the `$set` documents of this module. -/
inductive TaskSetPath where
  | modelsInputElemModel (v : String)
  | modelsOutputElemModel (v : String)
  | outputError (v : String)
  | lastChange (v : Nat)
deriving DecidableEq, Repr

/-- One top-level key of a MongoDB update document: the `$set` operator with
its assignments, or a bare (non-operator) field key. -/
inductive UpdateKey where
  | setOp (paths : List TaskSetPath)
  | bareField (name : String) (v : Nat)
deriving DecidableEq, Repr

def isBareField : UpdateKey → Bool
  | .bareField _ _ => true
  | .setOp _ => false

/-- Validation of an update document, as pymongo and the server perform it:
pymongo only checks that the first key is an operator; the server then
rejects any remaining bare key as an unknown modifier. -/
def validateUpdateDoc : List UpdateKey → Except Err Unit
  | [] => .error (.mongo "update cannot be empty")
  | .bareField name _ :: _ =>
    .error (.mongo ("update only works with update operators, got " ++ name))
  | .setOp _ :: rest =>
    match rest.find? isBareField with
    | some (.bareField name _) => .error (.mongo ("Unknown modifier: " ++ name))
    | _ => .ok ()

/-- Application of one `$set` assignment to a Task, under the array-filter
binding `elem.model == elemModel`. -/
def applySetPath (elemModel : String) (t : TaskDoc) : TaskSetPath → TaskDoc
  | .modelsInputElemModel v =>
    { t with models := { t.models with input := t.models.input.map (fun it =>
        if it.model == elemModel then { it with model := v } else it) } }
  | .modelsOutputElemModel v =>
    { t with models := { t.models with output := t.models.output.map (fun it =>
        if it.model == elemModel then { it with model := v } else it) } }
  | .outputError v => { t with output_error := some v }
  | .lastChange v => { t with last_change := v }

/-- Application of a validated update document to one Task. -/
def applyUpdateKeys (elemModel : String) (keys : List UpdateKey) (t : TaskDoc) : TaskDoc :=
  keys.foldl (fun t k =>
    match k with
    | .setOp ps => ps.foldl (applySetPath elemModel) t
    | .bareField _ _ => t) t

/-- The call `Task._get_collection().update_many` with an id-in-list filter
and one array filter binding `elem.model == elemModel`. -/
def taskUpdateMany (db : DB) (ids : List String) (elemModel : String)
    (keys : List UpdateKey) : Except Err DB :=
  match validateUpdateDoc keys with
  | .error e => .error e
  | .ok _ => .ok { db with tasks := db.tasks.map (fun t =>
      if ids.contains t.id then applyUpdateKeys elemModel keys t else t) }

/-- Replaces the first list element satisfying `p` by its image under `f`
(the single-document semantics of `update_one`). -/
def updateFirst (p : TaskDoc → Bool) (f : TaskDoc → TaskDoc) : List TaskDoc → List TaskDoc
  | [] => []
  | t :: ts => if p t then f t :: ts else t :: updateFirst p f ts

/-- The call `Task._get_collection().update_one` with the filter
`id == task_id and models.output.model == filterModel` and one array filter
binding `elem.model == elemModel`. -/
def taskUpdateOne (db : DB) (task_id filterModel elemModel : String)
    (keys : List UpdateKey) : Except Err DB :=
  match validateUpdateDoc keys with
  | .error e => .error e
  | .ok _ =>
    let p := fun t : TaskDoc =>
      t.id == task_id && t.models.output.any (fun it => it.model == filterModel)
    .ok { db with tasks := updateFirst p (applyUpdateKeys elemModel keys) db.tasks }

/-- The query `Task.objects(models__input__model=model_id)`: consuming tasks,
deliberately not company-scoped. -/
def usingTasks (db : DB) (model_id : String) : List TaskDoc :=
  db.tasks.filter (fun t => t.models.input.any (fun it => it.model == model_id))

/-- The update document rewriting the matching `models.input` elements. -/
def inputRewriteUpdate (tomb : String) : List UpdateKey :=
  [.setOp [.modelsInputElemModel tomb]]

/-- The update document of the published-originating-task branch, exactly as
the source builds it: a `$set` on the matching output element and on
`output.error`, plus a top-level (non-operator) `last_change` key. -/
def outputTombstoneUpdate (tomb : String) (now : Nat) : List UpdateKey :=
  [.setOp [.modelsOutputElemModel tomb,
           .outputError ("model deleted on " ++ isoformat now)],
   .bareField "last_change" now]

/-- Delete step 3: consuming-task check and bulk input rewrite. -/
def deleteStepInput (db : DB) (model_id : String) (force : Bool) : Except Err DB :=
  if (usingTasks db model_id).isEmpty then .ok db
  else if !force then .error (.api (.modelInUse (usingTasks db model_id).length))
  else
    taskUpdateMany db ((usingTasks db model_id).map TaskDoc.id) model_id
      (inputRewriteUpdate (tombstoneOf model_id))

/-- Delete step 4: originating-task check and conditional output rewrite.
The membership test `model_id in task.models.output` is modelled from the
spec (the Task/ModelItem classes are outside this source tree) as membership
of the id among the output elements' `model` fields. -/
def deleteStepOutput (db : DB) (model : ModelDoc) (model_id : String)
    (force : Bool) (now : Nat) : Except Err DB :=
  if model.task == "" then .ok db
  else
    match (db.tasks.filter (fun t => t.id == model.task)).head? with
    | none => .ok db
    | some task =>
      if task.status == .published then
        if !force then .error (.api (.modelCreatingTaskExists model.task))
        else if !task.models.output.isEmpty
            && task.models.output.any (fun it => it.model == model_id) then
          taskUpdateOne db model.task model_id model_id
            (outputTombstoneUpdate (tombstoneOf model_id) now)
        else .ok db
      else .ok db

/-- Delete step 5: `Model.objects(id=model_id, company=company_id).delete()`. -/
def deleteStepRemove (db : DB) (model_id company_id : String) : Nat × DB :=
  ((db.models.filter (fun x => x.id == model_id && x.company == some company_id)).length,
   { db with models := db.models.filter (fun x =>
       !(x.id == model_id && x.company == some company_id)) })

/-- ModelBLL.delete_model. -/
def delete_model (db : DB) (model_id company_id : String) (force : Bool) (now : Nat) :
    Except (Err × DB) ((Nat × ModelDoc) × DB) :=
  match get_company_model_by_id db company_id model_id with
  | .error e => .error (.api e, db)
  | .ok model =>
    match deleteStepInput db model_id force with
    | .error e => .error (e, db)
    | .ok db1 =>
      match deleteStepOutput db1 model model_id force now with
      | .error e => .error (e, db1)
      | .ok db2 =>
        let (del_count, db3) := deleteStepRemove db2 model_id company_id
        .ok ((del_count, model), db3)

/-- The store states a delete_model execution passes through, ending with the
state left behind at return or at the raise. -/
def delete_model_states (db : DB) (model_id company_id : String) (force : Bool)
    (now : Nat) : List DB :=
  match get_company_model_by_id db company_id model_id with
  | .error _ => [db]
  | .ok model =>
    match deleteStepInput db model_id force with
    | .error _ => [db]
    | .ok db1 =>
      match deleteStepOutput db1 model model_id force now with
      | .error _ => [db, db1]
      | .ok db2 => [db, db1, db2, (deleteStepRemove db2 model_id company_id).2]

/-- The store state delete_model leaves behind, on success or on a raise. -/
def delete_model_final (db : DB) (model_id company_id : String) (force : Bool)
    (now : Nat) : DB :=
  match delete_model db model_id company_id force now with
  | .ok (_, d) => d
  | .error (_, d) => d

/-- Mongo `$addToSet`: append the value unless already present. -/
def addToSet (l : List String) (v : String) : List String :=
  if l.contains v then l else l ++ [v]

/-- The matched-document count of the archive/unarchive update
(`Model.objects(company=company_id, id=model_id)`). -/
def archMatched (db : DB) (company_id model_id : String) : Nat :=
  (db.models.filter (fun x => x.company == some company_id && x.id == model_id)).length

/-- Effect of `add_to_set__system_tags=archived, last_update=now` on the
matching models. -/
def archive_apply (db : DB) (model_id company_id : String) (now : Nat) : DB :=
  { db with models := db.models.map (fun x =>
      if x.company == some company_id && x.id == model_id then
        { x with system_tags := addToSet x.system_tags archivedTag, last_update := now }
      else x) }

/-- Effect of `pull__system_tags=archived, last_update=now` (Mongo `$pull`
removes every occurrence) on the matching models. -/
def unarchive_apply (db : DB) (model_id company_id : String) (now : Nat) : DB :=
  { db with models := db.models.map (fun x =>
      if x.company == some company_id && x.id == model_id then
        { x with system_tags := x.system_tags.filter (fun s => !(s == archivedTag)),
                 last_update := now }
      else x) }

/-- ModelBLL.archive_model: resolve, then add the archived tag and refresh
`last_update`; returns the store's matched-document count. -/
def archive_model (db : DB) (model_id company_id : String) (now : Nat) :
    Except (Err × DB) (Nat × DB) :=
  match get_company_model_by_id db company_id model_id with
  | .error e => .error (.api e, db)
  | .ok _ => .ok (archMatched db company_id model_id, archive_apply db model_id company_id now)

/-- ModelBLL.unarchive_model: resolve, then pull the archived tag and refresh
`last_update`; returns the store's matched-document count. -/
def unarchive_model (db : DB) (model_id company_id : String) (now : Nat) :
    Except (Err × DB) (Nat × DB) :=
  match get_company_model_by_id db company_id model_id with
  | .error e => .error (.api e, db)
  | .ok _ => .ok (archMatched db company_id model_id, unarchive_apply db model_id company_id now)

/-- ModelBLL.get_model_stats: empty input short-circuits; otherwise one
aggregation pass over models whose company is null, empty or the target and
whose id is requested, projecting id and the cardinality of `labels`. -/
def get_model_stats (db : DB) (company : String) (model_ids : List String) :
    List (String × Nat) :=
  if model_ids.isEmpty then []
  else
    (db.models.filter (fun m =>
        (m.company == none || m.company == some "" || m.company == some company)
          && model_ids.contains m.id)).map
      (fun m => (m.id, m.labels.length))

/-- Effect of the force-delete input rewrite on one Task: every
`models.input` element referencing the model is renamed to the tombstone id. -/
def rewriteTaskInputs (model_id : String) (t : TaskDoc) : TaskDoc :=
  { t with models := { t.models with input := t.models.input.map (fun it =>
      if it.model == model_id then { it with model := tombstoneOf model_id } else it) } }

/-- Shorthand constructor for a concrete Model document. -/
def mdl (i : String) (co : Option String) (rdy : Bool) (tk : String)
    (lbls : List (String × Nat)) (tags : List String) : ModelDoc :=
  { id := i, company := co, ready := rdy, task := tk, project := "p", uri := "u",
    labels := lbls, system_tags := tags, last_update := 0 }

/-- Shorthand constructor for a concrete Task document. -/
def tsk (i : String) (co : Option String) (st : TaskStatus)
    (inp outp : List String) : TaskDoc :=
  { id := i, company := co, status := st,
    models := { input := inp.map ModelItem.mk, output := outp.map ModelItem.mk },
    output_error := none, last_change := 0 }

/-- Store with one input-consumed model whose originating-task field is unset. -/
def exDbInputRef : DB :=
  { models := [mdl "m1" (some "c") false "" [] []],
    tasks := [tsk "t1" (some "c") .created ["m1"] []] }

/-- Store with a model that is both consumed as input by one task and listed
as output of its published originating task. -/
def exDbInputAndOutput : DB :=
  { models := [mdl "m1" (some "c") false "t2" [] []],
    tasks := [tsk "t1" (some "c") .created ["m1"] [],
              tsk "t2" (some "c") .published [] ["m1"]] }

/-- Store with a model listed as output of its published originating task and
not consumed by any task. -/
def exDbPublishedOutput : DB :=
  { models := [mdl "m1" (some "c") false "t2" [] []],
    tasks := [tsk "t2" (some "c") .published [] ["m1"]] }

/-- Store holding a single resolvable model, used for batch-resolve checks. -/
def exDbOneModel : DB :=
  { models := [mdl "a" (some "c") false "" [] []], tasks := [] }

/-- Store with an already-published (ready) model whose originating task is
present and not published. -/
def exDbReadyModel : DB :=
  { models := [mdl "m1" (some "c") true "t9" [] []],
    tasks := [tsk "t9" (some "c") .created [] []] }

/-- Store with a non-ready model whose originating task exists, is
company-scoped and not yet published. -/
def exDbCascade : DB :=
  { models := [mdl "m1" (some "c") false "t1" [] []],
    tasks := [tsk "t1" (some "c") .created [] []] }

/-- Store with one model carrying an unrelated system tag. -/
def exDbTagged : DB :=
  { models := [mdl "m1" (some "c") false "" [] ["other"]], tasks := [] }

/-- Store with a single public (null-company) model with one label. -/
def exDbPublic : DB :=
  { models := [mdl "m1" none false "" [("a", 1)] []], tasks := [] }

/-- A concrete injected callback that always raises. -/
def exCbBoom : String → String → String → Bool → Except String Nat :=
  fun _ _ _ _ => .error "boom"

/-- A concrete injected callback that always succeeds with payload 42. -/
def exCbOk : String → String → String → Bool → Except String Nat :=
  fun _ _ _ _ => .ok 42

lemma get_company_model_by_id_ok {db : DB} {cid mid : String} {m : ModelDoc} :
    get_company_model_by_id db cid mid = .ok m ↔ modelFind db cid mid = some m := by
  unfold get_company_model_by_id
  cases h : modelFind db cid mid <;> simp

lemma deleteStepInput_models {db d : DB} {mid : String} {force : Bool}
    (h : deleteStepInput db mid force = .ok d) : d.models = db.models := by
  unfold deleteStepInput at h
  split at h
  · cases Except.ok.inj h; rfl
  · split at h
    · exact absurd h (by simp)
    · unfold taskUpdateMany at h
      split at h
      · exact absurd h (by simp)
      · cases Except.ok.inj h; rfl

lemma deleteStepOutput_ok {db d : DB} {m : ModelDoc} {mid : String} {force : Bool} {now : Nat}
    (h : deleteStepOutput db m mid force now = .ok d) : d = db := by
  unfold deleteStepOutput at h
  split at h
  · exact (Except.ok.inj h).symm
  · split at h
    · exact (Except.ok.inj h).symm
    · split at h
      · split at h
        · exact absurd h (by simp)
        · split at h
          · simp [taskUpdateOne, validateUpdateDoc, outputTombstoneUpdate, isBareField,
              List.find?] at h
          · exact (Except.ok.inj h).symm
      · exact (Except.ok.inj h).symm

lemma addToSet_idem (l : List String) (v : String) :
    addToSet (addToSet l v) v = addToSet l v := by
  by_cases h : v ∈ l
  · simp [addToSet, h]
  · simp [addToSet, h]

lemma rewriteTaskInputs_noref {mid : String} {t : TaskDoc}
    (h : t.models.input.any (fun it => it.model == mid) = false) :
    rewriteTaskInputs mid t = t := by
  unfold rewriteTaskInputs
  have hall : ∀ x ∈ t.models.input, ¬(x.model = mid) := by simpa using h
  have hinp : t.models.input.map (fun it =>
      if it.model == mid then { it with model := tombstoneOf mid } else it)
      = t.models.input := by
    have hmap : t.models.input.map (fun it =>
        if it.model == mid then { it with model := tombstoneOf mid } else it)
        = t.models.input.map id :=
      List.map_congr_left (fun it hit => by simp [hall it hit])
    rw [hmap, List.map_id]
  rw [hinp]

lemma deleteStepInput_force (db : DB) (mid : String) :
    deleteStepInput db mid true
      = .ok { db with tasks := db.tasks.map (rewriteTaskInputs mid) } := by
  unfold deleteStepInput
  by_cases h : (usingTasks db mid).isEmpty
  · rw [if_pos h]
    have hnil : usingTasks db mid = [] := by simpa using h
    have hmap : db.tasks.map (rewriteTaskInputs mid) = db.tasks := by
      have heq : db.tasks.map (rewriteTaskInputs mid) = db.tasks.map id := by
        apply List.map_congr_left
        intro t ht
        have hany : t.models.input.any (fun it => it.model == mid) = false := by
          by_contra hb
          have hmem : t ∈ usingTasks db mid :=
            List.mem_filter.mpr ⟨ht, by simpa using hb⟩
          simp [hnil] at hmem
        simp [rewriteTaskInputs_noref hany]
      rw [heq, List.map_id]
    rw [hmap]
  · rw [if_neg h]
    have hmap : db.tasks.map (fun t =>
        if ((usingTasks db mid).map TaskDoc.id).contains t.id = true then
          applyUpdateKeys mid (inputRewriteUpdate (tombstoneOf mid)) t
        else t) = db.tasks.map (rewriteTaskInputs mid) := by
      apply List.map_congr_left
      intro t ht
      by_cases hc : ((usingTasks db mid).map TaskDoc.id).contains t.id = true
      · rw [if_pos hc]
        rfl
      · rw [if_neg hc]
        have hany : t.models.input.any (fun it => it.model == mid) = false := by
          by_contra hb
          have hmem : t ∈ usingTasks db mid :=
            List.mem_filter.mpr ⟨ht, by simpa using hb⟩
          have hid : t.id ∈ (usingTasks db mid).map TaskDoc.id :=
            List.mem_map_of_mem TaskDoc.id hmem
          exact hc (List.elem_iff.mpr hid)
        exact (rewriteTaskInputs_noref hany).symm
    simp only [Bool.not_true, Bool.false_eq_true, if_false]
    unfold taskUpdateMany
    have hval : validateUpdateDoc (inputRewriteUpdate (tombstoneOf mid)) = .ok () := rfl
    rw [hval, hmap]

/-- C1 (amended): a Model referenced in `models.input` of at least one Task
cannot be deleted with `force = false`: delete_model raises ModelInUse
reporting the referencing-task count and leaves the store unchanged.  With
`force = true` — provided the published-originating-task output-rewrite
branch is not triggered (hypothesis `hout`; that branch always fails in the
store, see the C2 result) — every referencing Task's matching input element
is rewritten to the tombstone id across all tenants and the Model document
is then removed. -/
theorem delete_model_input_referenced (db : DB) (mid cid : String) (now : Nat) (m : ModelDoc)
    (hres : get_company_model_by_id db cid mid = .ok m)
    (hused : usingTasks db mid ≠ [])
    (hout : deleteStepOutput { db with tasks := db.tasks.map (rewriteTaskInputs mid) } m mid true now
        = .ok { db with tasks := db.tasks.map (rewriteTaskInputs mid) }) :
    delete_model db mid cid false now
      = .error (.api (.modelInUse (usingTasks db mid).length), db)
    ∧ delete_model db mid cid true now
      = .ok (((db.models.filter (fun x => x.id == mid && x.company == some cid)).length, m),
          { models := db.models.filter (fun x => !(x.id == mid && x.company == some cid)),
            tasks := db.tasks.map (rewriteTaskInputs mid) }) := by
  constructor
  · have h1 : deleteStepInput db mid false
        = .error (.api (.modelInUse (usingTasks db mid).length)) := by
      unfold deleteStepInput
      rw [if_neg (by simpa using hused)]
      simp
    unfold delete_model
    simp only [hres, h1]
  · unfold delete_model
    simp only [hres, deleteStepInput_force db mid, hout]
    simp [deleteStepRemove]

/-- C1: witness — the amended statement evaluated on a concrete store with
one consuming task and no originating task. -/
theorem delete_model_input_referenced_witness :
    delete_model exDbInputRef "m1" "c" false 3
      = .error (.api (.modelInUse (usingTasks exDbInputRef "m1").length), exDbInputRef)
    ∧ delete_model exDbInputRef "m1" "c" true 3
      = .ok (((exDbInputRef.models.filter (fun x => x.id == "m1" && x.company == some "c")).length,
          mdl "m1" (some "c") false "" [] []),
          { models := exDbInputRef.models.filter (fun x => !(x.id == "m1" && x.company == some "c")),
            tasks := exDbInputRef.tasks.map (rewriteTaskInputs "m1") }) :=
  delete_model_input_referenced exDbInputRef "m1" "c" 3 (mdl "m1" (some "c") false "" [] [])
    rfl (by decide) rfl

/-- C1: counterexample to the claim as stated — a Model consumed as input by
one Task and also listed as output of its published originating Task.
Force-deleting it does not remove the Model document: the output-rewrite
update is rejected by the store (its update document mixes an operator key
with the bare `last_change` key) and the exception escapes after the input
references were already tombstoned. -/
theorem delete_model_input_referenced_counterexample :
    (usingTasks exDbInputAndOutput "m1").length = 1
    ∧ delete_model exDbInputAndOutput "m1" "c" true 7
      = .error (.mongo "Unknown modifier: last_change",
          { models := exDbInputAndOutput.models,
            tasks := [tsk "t1" (some "c") .created ["__DELETED__m1"] [],
                      tsk "t2" (some "c") .published [] ["m1"]] })
    ∧ (delete_model_final exDbInputAndOutput "m1" "c" true 7).models
        = exDbInputAndOutput.models :=
  ⟨rfl, rfl, rfl⟩

/-- C2: evaluation of delete_model on a Model whose originating Task is
published and lists it in `models.output`.  With `force = false` it raises
ModelCreatingTaskExists carrying the task id and changes nothing — as the
claim says.  With `force = true` the conditional output update is rejected
by the store because the source places `last_change` outside `$set`
(`Unknown modifier: last_change`), so no output element is rewritten, no
`output.error` is set, no `last_change` is refreshed, and the Model document
is never removed — contradicting the claim. -/
theorem delete_model_published_output_divergence :
    delete_model exDbPublishedOutput "m1" "c" false 7
      = .error (.api (.modelCreatingTaskExists "t2"), exDbPublishedOutput)
    ∧ delete_model exDbPublishedOutput "m1" "c" true 7
      = .error (.mongo "Unknown modifier: last_change", exDbPublishedOutput)
    ∧ delete_model_final exDbPublishedOutput "m1" "c" true 7 = exDbPublishedOutput :=
  ⟨rfl, rfl, rfl⟩

/-- C7: in every delete_model execution the `Model` collection is untouched
in every store state except the final one — all reference rewrites happen
strictly before the Model document is removed — and the last state of the
trace is exactly the state delete_model leaves behind. -/
theorem delete_model_rewrites_precede_removal (db : DB) (mid cid : String)
    (force : Bool) (now : Nat) :
    (∀ s ∈ (delete_model_states db mid cid force now).dropLast, s.models = db.models)
    ∧ (delete_model_states db mid cid force now).getLast?
        = some (delete_model_final db mid cid force now) := by
  cases h0 : get_company_model_by_id db cid mid with
  | error e => simp [delete_model_states, delete_model_final, delete_model, h0]
  | ok m =>
    cases h1 : deleteStepInput db mid force with
    | error e1 => simp [delete_model_states, delete_model_final, delete_model, h0, h1]
    | ok db1 =>
      cases h2 : deleteStepOutput db1 m mid force now with
      | error e2 =>
        simp [delete_model_states, delete_model_final, delete_model, h0, h1, h2,
          deleteStepInput_models h1]
      | ok db2 =>
        have hdb : db2 = db1 := deleteStepOutput_ok h2
        subst hdb
        simp [delete_model_states, delete_model_final, delete_model, h0, h1, h2,
          deleteStepInput_models h1, deleteStepRemove]

/-- C3: whenever the number of Models resolvable under the visibility rule
differs from the number of distinct requested ids, the batch resolve raises
InvalidModelId carrying the full requested id set and returns nothing. -/
theorem assert_exists_partial_total_failure (db : DB) (company_id : String)
    (model_ids : List String) (allow_public return_models : Bool)
    (hnd : model_ids.Nodup)
    (hcount : (db.models.filter (fun m =>
        model_ids.contains m.id && visible company_id allow_public m)).length
      ≠ model_ids.length) :
    assertExists db company_id model_ids allow_public return_models
      = .error (.invalidModelId model_ids) := by
  unfold assertExists
  simp only [List.dedup_eq_self.mpr hnd]
  rw [if_pos hcount]

/-- C3: witness — two distinct ids requested, only one resolvable. -/
theorem assert_exists_partial_total_failure_witness :
    assertExists exDbOneModel "c" ["a", "b"] true true
      = .error (.invalidModelId ["a", "b"]) :=
  assert_exists_partial_total_failure exDbOneModel "c" ["a", "b"] true true
    (by decide) (by decide)

/-- C4: publishing a Model whose `ready` flag is already set raises
ModelIsReady for every injected callback — even one that would itself raise —
and leaves the store unchanged, so no update and no callback invocation is
observable. -/
theorem publish_model_already_ready {α : Type} (db : DB) (mid cid uid : String)
    (force : Bool) (now : Nat) (m : ModelDoc)
    (pf : Option (String → String → String → Bool → Except String α))
    (hres : get_company_model_by_id db cid mid = .ok m)
    (hready : m.ready = true) :
    publish_model db mid cid uid force pf now
      = .error (.api (.modelIsReady cid mid), db) := by
  unfold publish_model
  simp only [hres, hready]
  simp

/-- C5: when the injected task-publish callback raises, the exception
escapes publish_model uncaught and the store is still the original one — the
Model's `ready` flag and `last_update` are untouched because the callback
runs strictly before the Model's own update. -/
theorem publish_model_callback_failure {α : Type} (db : DB) (mid cid uid : String)
    (force : Bool) (now : Nat) (m : ModelDoc) (t : TaskDoc) (e : String)
    (f : String → String → String → Bool → Except String α)
    (hres : get_company_model_by_id db cid mid = .ok m)
    (hready : m.ready = false)
    (htask : m.task ≠ "")
    (hlook : publishTaskLookup db m.task cid = some t)
    (hstat : t.status ≠ .published)
    (hf : f m.task cid uid force = .error e) :
    publish_model db mid cid uid force (some f) now = .error (.callback e, db) := by
  unfold publish_model
  simp only [hres, hready, hlook, hf]
  simp [htask, hstat]

/-- C6: for a non-ready Model referencing an originating Task, when that Task
resolves (company-scoped) with a status other than published, the injected
callback is invoked with the task id, company, user and force flag, and its
payload is returned as the secondary component; when the Task is absent or
already published no callback runs and the secondary component is empty.  In
all three cases the Model's own ready-update is issued. -/
theorem publish_model_cascade {α : Type} (db : DB) (mid cid uid : String)
    (force : Bool) (now : Nat) (m : ModelDoc)
    (f : String → String → String → Bool → Except String α)
    (hres : get_company_model_by_id db cid mid = .ok m)
    (hready : m.ready = false)
    (htask : m.task ≠ "") :
    (∀ t r, publishTaskLookup db m.task cid = some t → t.status ≠ .published →
        f m.task cid uid force = .ok r →
        publish_model db mid cid uid force (some f) now
          = .ok (((modelSetReady db mid now).1, some ⟨m.task, r⟩),
              (modelSetReady db mid now).2))
    ∧ (publishTaskLookup db m.task cid = none →
        publish_model db mid cid uid force (some f) now
          = .ok (((modelSetReady db mid now).1, none), (modelSetReady db mid now).2))
    ∧ (∀ t, publishTaskLookup db m.task cid = some t → t.status = .published →
        publish_model db mid cid uid force (some f) now
          = .ok (((modelSetReady db mid now).1, none), (modelSetReady db mid now).2)) := by
  refine ⟨?_, ?_, ?_⟩
  · intro t r hlook hstat hf
    unfold publish_model
    simp only [hres, hready, hlook, hf]
    simp [htask, hstat, modelSetReady]
  · intro hlook
    unfold publish_model
    simp only [hres, hready, hlook]
    simp [htask, modelSetReady]
  · intro t hlook hstat
    unfold publish_model
    simp only [hres, hready, hlook, hstat]
    simp [htask, modelSetReady]

/-- C4: witness — a ready model, published with a callback that would raise. -/
theorem publish_model_already_ready_witness :
    publish_model exDbReadyModel "m1" "c" "u" false (some exCbBoom) 9
      = .error (.api (.modelIsReady "c" "m1"), exDbReadyModel) :=
  publish_model_already_ready exDbReadyModel "m1" "c" "u" false 9
    (mdl "m1" (some "c") true "t9" [] []) (some exCbBoom) rfl rfl

/-- C5: witness — the raising callback on a non-ready model with a
non-published originating task. -/
theorem publish_model_callback_failure_witness :
    publish_model exDbCascade "m1" "c" "u" false (some exCbBoom) 9
      = .error (.callback "boom", exDbCascade) :=
  publish_model_callback_failure exDbCascade "m1" "c" "u" false 9
    (mdl "m1" (some "c") false "t1" [] []) (tsk "t1" (some "c") .created [] []) "boom"
    exCbBoom rfl rfl (by decide) rfl (by decide) rfl

/-- C6: witness — the succeeding callback's payload is returned as the
secondary component. -/
theorem publish_model_cascade_witness :
    publish_model exDbCascade "m1" "c" "u" false (some exCbOk) 9
      = .ok (((modelSetReady exDbCascade "m1" 9).1, some ⟨"t1", 42⟩),
          (modelSetReady exDbCascade "m1" 9).2) :=
  (publish_model_cascade exDbCascade "m1" "c" "u" false 9
    (mdl "m1" (some "c") false "t1" [] []) exCbOk rfl rfl (by decide)).1
    (tsk "t1" (some "c") .created [] []) 42 rfl (by decide) rfl

lemma modelFind_map_preserve {db : DB} {cid mid : String} {m : ModelDoc}
    (g : ModelDoc → ModelDoc)
    (hg_id : ∀ x, (g x).id = x.id) (hg_co : ∀ x, (g x).company = x.company)
    (h : modelFind db cid mid = some m) :
    modelFind { db with models := db.models.map g } cid mid = some (g m) := by
  unfold modelFind at h ⊢
  rw [List.find?_map]
  have hp : ((fun x : ModelDoc => x.company == some cid && x.id == mid) ∘ g)
      = fun x : ModelDoc => x.company == some cid && x.id == mid := by
    funext x
    simp [Function.comp, hg_id x, hg_co x]
  rw [hp, h]
  rfl

lemma archMatched_map (db : DB) (cid mid : String)
    (g : ModelDoc → ModelDoc)
    (hg_id : ∀ x, (g x).id = x.id) (hg_co : ∀ x, (g x).company = x.company) :
    archMatched { db with models := db.models.map g } cid mid = archMatched db cid mid := by
  unfold archMatched
  rw [List.filter_map]
  have hp : ((fun x : ModelDoc => x.company == some cid && x.id == mid) ∘ g)
      = fun x : ModelDoc => x.company == some cid && x.id == mid := by
    funext x
    simp [Function.comp, hg_id x, hg_co x]
  rw [hp, List.length_map]

/-- C8: archive and unarchive are idempotent on the tag set.  Archiving an
existing model succeeds returning the store's matched count; archiving again
succeeds with the same count and the same per-model `system_tags` (the
archived tag is never duplicated); unarchiving a model that does not carry
the archived tag succeeds with every model's `system_tags` unchanged. -/
theorem archive_unarchive_idempotent (db : DB) (mid cid : String) (t1 t2 t3 : Nat)
    (m : ModelDoc)
    (hres : get_company_model_by_id db cid mid = .ok m) :
    archive_model db mid cid t1 = .ok (archMatched db cid mid, archive_apply db mid cid t1)
    ∧ archive_model (archive_apply db mid cid t1) mid cid t2
        = .ok (archMatched db cid mid,
            archive_apply (archive_apply db mid cid t1) mid cid t2)
    ∧ (archive_apply (archive_apply db mid cid t1) mid cid t2).models.map
          (fun x => (x.id, x.system_tags))
        = (archive_apply db mid cid t1).models.map (fun x => (x.id, x.system_tags))
    ∧ ((∀ x ∈ db.models, x.company = some cid → x.id = mid → archivedTag ∉ x.system_tags) →
        unarchive_model db mid cid t3
          = .ok (archMatched db cid mid, unarchive_apply db mid cid t3)
        ∧ (unarchive_apply db mid cid t3).models.map (fun x => (x.id, x.system_tags))
            = db.models.map (fun x => (x.id, x.system_tags))) := by
  have hfind : modelFind db cid mid = some m := get_company_model_by_id_ok.mp hres
  refine ⟨?_, ?_, ?_, ?_⟩
  · unfold archive_model
    unfold get_company_model_by_id
    rw [hfind]
  · have hfind1 : modelFind (archive_apply db mid cid t1) cid mid
        = some ((fun x : ModelDoc =>
            if x.company == some cid && x.id == mid then
              { x with system_tags := addToSet x.system_tags archivedTag, last_update := t1 }
            else x) m) := by
      apply modelFind_map_preserve
      · intro x
        by_cases hx : (x.company == some cid && x.id == mid) = true <;> simp [hx]
      · intro x
        by_cases hx : (x.company == some cid && x.id == mid) = true <;> simp [hx]
      · exact hfind
    unfold archive_model
    unfold get_company_model_by_id
    rw [hfind1]
    have hcnt : archMatched (archive_apply db mid cid t1) cid mid = archMatched db cid mid := by
      apply archMatched_map
      · intro x
        by_cases hx : (x.company == some cid && x.id == mid) = true <;> simp [hx]
      · intro x
        by_cases hx : (x.company == some cid && x.id == mid) = true <;> simp [hx]
    rw [hcnt]
  · unfold archive_apply
    rw [List.map_map, List.map_map, List.map_map]
    apply List.map_congr_left
    intro x hx
    by_cases hP : (x.company == some cid && x.id == mid) = true
    · simp [Function.comp, hP, addToSet_idem]
    · simp [Function.comp, hP]
  · intro hclean
    constructor
    · unfold unarchive_model
      unfold get_company_model_by_id
      rw [hfind]
    · unfold unarchive_apply
      rw [List.map_map]
      apply List.map_congr_left
      intro x hx
      by_cases hP : (x.company == some cid && x.id == mid) = true
      · have hco : x.company = some cid := by
          have := (Bool.and_eq_true _ _).mp hP
          simpa using this.1
        have hid : x.id = mid := by
          have := (Bool.and_eq_true _ _).mp hP
          simpa using this.2
        have hnotin : archivedTag ∉ x.system_tags := hclean x hx hco hid
        have hkeep : x.system_tags.filter (fun s => !(s == archivedTag)) = x.system_tags := by
          apply List.filter_eq_self.mpr
          intro s hs
          simp only [Bool.not_eq_true']
          exact beq_eq_false_iff_ne.mpr (fun hcontra => hnotin (hcontra ▸ hs))
        simp [Function.comp, hP, hkeep]
      · simp [Function.comp, hP]

/-- C8: witness — archiving twice and unarchiving a model whose tag set does
not carry the archived tag, on a concrete store. -/
theorem archive_unarchive_idempotent_witness :
    archive_model exDbTagged "m1" "c" 4
      = .ok (archMatched exDbTagged "c" "m1", archive_apply exDbTagged "m1" "c" 4)
    ∧ archive_model (archive_apply exDbTagged "m1" "c" 4) "m1" "c" 5
      = .ok (archMatched exDbTagged "c" "m1",
          archive_apply (archive_apply exDbTagged "m1" "c" 4) "m1" "c" 5)
    ∧ (archive_apply (archive_apply exDbTagged "m1" "c" 4) "m1" "c" 5).models.map
          (fun x => (x.id, x.system_tags))
        = (archive_apply exDbTagged "m1" "c" 4).models.map (fun x => (x.id, x.system_tags))
    ∧ unarchive_model exDbTagged "m1" "c" 6
      = .ok (archMatched exDbTagged "c" "m1", unarchive_apply exDbTagged "m1" "c" 6)
    ∧ (unarchive_apply exDbTagged "m1" "c" 6).models.map (fun x => (x.id, x.system_tags))
        = exDbTagged.models.map (fun x => (x.id, x.system_tags)) := by
  have h := archive_unarchive_idempotent exDbTagged "m1" "c" 4 5 6
    (mdl "m1" (some "c") false "" [] ["other"]) rfl
  exact ⟨h.1, h.2.1, h.2.2.1, (h.2.2.2 (by decide)).1, (h.2.2.2 (by decide)).2⟩

/-- C9: the stats aggregation returns an empty mapping for an empty id list
whatever the store holds, and otherwise contains exactly the requested ids of
models whose company is null, empty or the target, each mapped to the
cardinality of that model's labels mapping; unresolved ids are simply
absent. -/
theorem get_model_stats_spec (db : DB) (company : String) (model_ids : List String)
    (id : String) (k : Nat) :
    (∀ db2 : DB, get_model_stats db2 company [] = [])
    ∧ ((id, k) ∈ get_model_stats db company model_ids ↔
        ∃ m ∈ db.models, m.id = id
          ∧ (m.company = none ∨ m.company = some "" ∨ m.company = some company)
          ∧ id ∈ model_ids ∧ k = m.labels.length) := by
  constructor
  · intro db2
    simp [get_model_stats]
  · by_cases h : model_ids.isEmpty
    · have hnil : model_ids = [] := by simpa using h
      subst hnil
      simp [get_model_stats]
    · unfold get_model_stats
      rw [if_neg (by simpa using h)]
      constructor
      · intro hmem
        rcases List.mem_map.mp hmem with ⟨m, hmf, hmk⟩
        rcases List.mem_filter.mp hmf with ⟨hm, hpred⟩
        simp only [Bool.and_eq_true, Bool.or_eq_true, beq_iff_eq] at hpred
        rcases hpred with ⟨hco, hin⟩
        have hid : m.id = id := congrArg Prod.fst hmk
        have hk : m.labels.length = k := congrArg Prod.snd hmk
        refine ⟨m, hm, hid, ?_, ?_, hk.symm⟩
        · rcases hco with (h1 | h1) | h1
          · exact Or.inl h1
          · exact Or.inr (Or.inl h1)
          · exact Or.inr (Or.inr h1)
        · rw [← hid]
          exact List.elem_iff.mp hin
      · rintro ⟨m, hm, hid, hco, hin, hk⟩
        apply List.mem_map.mpr
        refine ⟨m, List.mem_filter.mpr ⟨hm, ?_⟩, by rw [hid, hk]⟩
        simp only [Bool.and_eq_true, Bool.or_eq_true, beq_iff_eq]
        constructor
        · rcases hco with h1 | h1 | h1
          · exact Or.inl (Or.inl h1)
          · exact Or.inl (Or.inr h1)
          · exact Or.inr h1
        · exact List.elem_iff.mpr (hid ▸ hin)

/-- C10: a public model — null or empty company — is never resolvable through
the company-scoped point lookup for any nonempty tenant id, so publish,
delete, archive and unarchive all raise InvalidModelId and change nothing,
even though the batch-resolve visibility rule with allow_public and the stats
aggregation treat the same model as visible. -/
theorem public_model_company_ops_not_found (db : DB) (mid cid uid : String) (l : List String)
    (hcid : cid ≠ "")
    (hpub : ∀ x ∈ db.models, x.id = mid → x.company = none ∨ x.company = some "") :
    get_company_model_by_id db cid mid = .error (.invalidModelId [mid])
    ∧ (∀ (force : Bool) (now : Nat)
        (pf : Option (String → String → String → Bool → Except String Nat)),
        publish_model db mid cid uid force pf now
          = .error (.api (.invalidModelId [mid]), db))
    ∧ (∀ (force : Bool) (now : Nat),
        delete_model db mid cid force now = .error (.api (.invalidModelId [mid]), db))
    ∧ (∀ now : Nat, archive_model db mid cid now = .error (.api (.invalidModelId [mid]), db))
    ∧ (∀ now : Nat, unarchive_model db mid cid now = .error (.api (.invalidModelId [mid]), db))
    ∧ (∀ x ∈ db.models, x.id = mid → visible cid true x = true)
    ∧ (∀ x ∈ db.models, x.id = mid → mid ∈ l →
        (mid, x.labels.length) ∈ get_model_stats db cid l) := by
  have hnone : modelFind db cid mid = none := by
    apply List.find?_eq_none.mpr
    intro x hx
    simp only [Bool.and_eq_true, beq_iff_eq, not_and]
    intro hco hid
    rcases hpub x hx hid with h | h
    · rw [h] at hco
      exact absurd hco (by simp)
    · rw [h] at hco
      exact absurd (Option.some.inj hco).symm hcid
  have hget : get_company_model_by_id db cid mid = .error (.invalidModelId [mid]) := by
    unfold get_company_model_by_id
    rw [hnone]
  refine ⟨hget, ?_, ?_, ?_, ?_, ?_, ?_⟩
  · intro force now pf
    unfold publish_model
    simp only [hget]
  · intro force now
    unfold delete_model
    simp only [hget]
  · intro now
    unfold archive_model
    simp only [hget]
  · intro now
    unfold unarchive_model
    simp only [hget]
  · intro x hx hid
    rcases hpub x hx hid with h | h <;> simp [visible, h]
  · intro x hx hid hin
    unfold get_model_stats
    rw [if_neg (by simpa using List.ne_nil_of_mem hin)]
    apply List.mem_map.mpr
    refine ⟨x, List.mem_filter.mpr ⟨hx, ?_⟩, by rw [hid]⟩
    simp only [Bool.and_eq_true, Bool.or_eq_true, beq_iff_eq]
    constructor
    · rcases hpub x hx hid with h | h
      · exact Or.inl (Or.inl h)
      · exact Or.inl (Or.inr h)
    · exact List.elem_iff.mpr (hid ▸ hin)

/-- C10: witness — a null-company public model, tenant `c`. -/
theorem public_model_company_ops_not_found_witness :
    get_company_model_by_id exDbPublic "c" "m1" = .error (.invalidModelId ["m1"])
    ∧ publish_model exDbPublic "m1" "c" "u" false (some exCbOk) 5
        = .error (.api (.invalidModelId ["m1"]), exDbPublic)
    ∧ delete_model exDbPublic "m1" "c" true 5
        = .error (.api (.invalidModelId ["m1"]), exDbPublic)
    ∧ archive_model exDbPublic "m1" "c" 5
        = .error (.api (.invalidModelId ["m1"]), exDbPublic)
    ∧ unarchive_model exDbPublic "m1" "c" 5
        = .error (.api (.invalidModelId ["m1"]), exDbPublic)
    ∧ visible "c" true (mdl "m1" none false "" [("a", 1)] []) = true
    ∧ ("m1", 1) ∈ get_model_stats exDbPublic "c" ["m1"] := by
  have h := public_model_company_ops_not_found exDbPublic "m1" "c" "u" ["m1"]
    (by decide) (by decide)
  refine ⟨h.1, h.2.1 false 5 (some exCbOk), h.2.2.1 true 5, h.2.2.2.1 5, h.2.2.2.2.1 5,
    h.2.2.2.2.2.1 (mdl "m1" none false "" [("a", 1)] []) (by decide) rfl, ?_⟩
  exact h.2.2.2.2.2.2 (mdl "m1" none false "" [("a", 1)] []) (by decide) rfl (by decide)
